import Mathlib

/-!
# go_http2_message_framework: the HTTP/2 clock-stream demo server (`main.go`)

A shallow embedding of `main.go` and the properties of its connection
lifecycle machinery.

* Time is counted in nanoseconds, as `time.Duration` does.
* Stateful code is written in state-passing style.  The closure returned by
  `idleTimeoutHook` captures the mutex `mu` and the map `m`; here the captured
  variables, together with the runtime's timers, form the record `Reaper`,
  and one call of the closure (which holds `mu` from entry to exit) is one
  atomic transition.
* The Go runtime's timers are modelled after the documentation of
  `time.AfterFunc` and `(*Timer).Stop`: a timer expires once its duration
  has elapsed, its function is then started in its own goroutine, and `Stop`
  only prevents a timer from expiring that has not expired yet.
* Handlers are modelled by the trace of the calls they make on their
  response writer, the logger and the blocking `select`.
-/

namespace H2Demo

/-! ## Package `time` -/

/-- Nanosecond counts, for `time.Duration`. -/
abbrev Duration := Nat

/-- Nanoseconds on the clock the runtime's timers use. -/
abbrev Time := Nat

/-- Go: `time.Millisecond`. -/
def Millisecond : Duration := 1000000

/-- Go: `time.Second`. -/
def Second : Duration := 1000 * Millisecond

/-- Go: `time.Minute`. -/
def Minute : Duration := 60 * Second

/-- Source: `const idleTimeout = 5 * time.Minute`. -/
def idleTimeout : Duration := 5 * Minute

/-- Source: `const activeTimeout = 10 * time.Minute`. -/
def activeTimeout : Duration := 10 * Minute

/-! ## Package `net/http`: connection states -/

/-- Go: `type ConnState int`. -/
abbrev ConnState := Int

/-- Go: `http.StateNew` (`iota`). -/
def StateNew : ConnState := 0

/-- Go: `http.StateActive`. -/
def StateActive : ConnState := 1

/-- Go: `http.StateIdle`. -/
def StateIdle : ConnState := 2

/-- Go: `http.StateHijacked`. -/
def StateHijacked : ConnState := 3

/-- Go: `http.StateClosed`. -/
def StateClosed : ConnState := 4

/-! ## The idle reaper: `idleTimeoutHook` -/

/-- The identity of a `net.Conn`, the key of the map `m`. -/
abbrev Conn := Nat

/-- The phases of a timer made by `time.AfterFunc`: waiting for its
duration to elapse; stopped by `Stop` before it expired; expired, with its
function started in a goroutine that has not run yet; function run. -/
inductive TimerStatus where
  | armed
  | stopped
  | expired
  | done
  deriving DecidableEq, Repr

/-- A `*time.Timer` made by `time.AfterFunc(d, f)` in the hook, with the
variables `c` and `d` its function `f` captures. -/
structure Timer where
  conn : Conn
  d : Duration
  deadline : Time
  status : TimerStatus
  deriving DecidableEq, Repr

/-- What a timer's function does: the `log.Printf` call and the
`go c.Close()` statement.  The first component is the index of the timer
whose function made the call. -/
inductive ReaperEvent where
  | logClosing (timer : Nat) (c : Conn) (d : Duration)
  | goClose (timer : Nat) (c : Conn)
  deriving DecidableEq, Repr

/-- The state the hook works on: the clock, the map `m` (a timer is
referred to by its index in `timers`), every timer allocated so far, and
the calls made by the timers' functions. -/
structure Reaper where
  now : Time
  m : Conn → Option Nat
  timers : List Timer
  log : List ReaperEvent

/-- Source: `m := map[net.Conn]*time.Timer{}` at a process start. -/
def Reaper.init : Reaper :=
  { now := 0, m := fun _ => none, timers := [], log := [] }

/-- Go: `delete(m, c)`. -/
def mapDelete (m : Conn → Option Nat) (c : Conn) : Conn → Option Nat :=
  fun k => if k = c then none else m k

/-- Go: `m[c] = t`. -/
def mapStore (m : Conn → Option Nat) (c : Conn) (t : Nat) : Conn → Option Nat :=
  fun k => if k = c then some t else m k

/-- Go: `t.Stop()`, on one timer: a timer that has not expired is
prevented from expiring; any other timer is left as it is. -/
def Timer.Stop (t : Timer) : Timer :=
  if t.status = TimerStatus.armed then { t with status := TimerStatus.stopped } else t

/-- Go: `t.Stop()` for the timer at index `i`. -/
def stopTimer (ts : List Timer) (i : Nat) : List Timer :=
  match ts[i]? with
  | some t => ts.set i t.Stop
  | none => ts

/-- Source: the first statement of the hook,
`if t, ok := m[c]; ok { delete(m, c); t.Stop() }`. -/
def cancelEntry (σ : Reaper) (c : Conn) : Reaper :=
  match σ.m c with
  | some i => { σ with m := mapDelete σ.m c, timers := stopTimer σ.timers i }
  | none => σ

/-- Source: the `switch cs` of the hook; `none` is the `default: return`. -/
def switchDuration (cs : ConnState) : Option Duration :=
  if cs = StateNew ∨ cs = StateIdle then some idleTimeout
  else if cs = StateActive then some activeTimeout
  else none

/-- Source: `m[c] = time.AfterFunc(d, func() {...})`: a new timer that
expires `d` from now is allocated and stored under `c`. -/
def armEntry (σ : Reaper) (c : Conn) (d : Duration) : Reaper :=
  { σ with
    m := mapStore σ.m c σ.timers.length
    timers := σ.timers ++
      [{ conn := c, d := d, deadline := σ.now + d, status := TimerStatus.armed }] }

/-- Source: the closure returned by `idleTimeoutHook`, called with `(c, cs)`. -/
def idleTimeoutHook (σ : Reaper) (c : Conn) (cs : ConnState) : Reaper :=
  let σ1 := cancelEntry σ c
  match switchDuration cs with
  | some d => armEntry σ1 c d
  | none => σ1

/-- The runtime finds the duration of timer `i` elapsed: the timer expires
and its function is started in its own goroutine. -/
def expireTimer (σ : Reaper) (i : Nat) : Reaper :=
  match σ.timers[i]? with
  | some t =>
    if t.status = TimerStatus.armed ∧ t.deadline ≤ σ.now then
      { σ with timers := σ.timers.set i { t with status := TimerStatus.expired } }
    else σ
  | none => σ

/-- Source: the body of the function given to `time.AfterFunc`,
`log.Printf("closing idle conn %v after %v", c.RemoteAddr(), d); go c.Close()`,
run by the goroutine started when timer `i` expired. -/
def runCallback (σ : Reaper) (i : Nat) : Reaper :=
  match σ.timers[i]? with
  | some t =>
    if t.status = TimerStatus.expired then
      { σ with
        timers := σ.timers.set i { t with status := TimerStatus.done }
        log := σ.log ++ [ReaperEvent.logClosing i t.conn t.d, ReaperEvent.goClose i t.conn] }
    else σ
  | none => σ

/-- One thing that happens to the reaper: time passes, the server
delivers a state notification, a timer expires, or the goroutine of an
expired timer runs its function. -/
inductive Step where
  | advance (dt : Duration)
  | notify (c : Conn) (cs : ConnState)
  | expire (i : Nat)
  | callback (i : Nat)
  deriving DecidableEq, Repr

/-- The effect of one step. -/
def step (σ : Reaper) : Step → Reaper
  | Step.advance dt => { σ with now := σ.now + dt }
  | Step.notify c cs => idleTimeoutHook σ c cs
  | Step.expire i => expireTimer σ i
  | Step.callback i => runCallback σ i

/-- The effect of an interleaving of steps, from left to right. -/
def run (σ : Reaper) (tr : List Step) : Reaper :=
  tr.foldl step σ

/-- The outstanding Entries for `c`: the timers scheduled for `c` that
have been neither stopped nor fired. -/
def outstanding (σ : Reaper) (c : Conn) : List Timer :=
  σ.timers.filter (fun t => decide (t.conn = c ∧ t.status = TimerStatus.armed))

/-- The latest state of `c` after one more step, `acc` being the latest
state before it. -/
def noteState (c : Conn) (acc : Option ConnState) : Step → Option ConnState
  | Step.notify k cs => if k = c then some cs else acc
  | _ => acc

/-- The state carried by the most recent notification for `c` in an
interleaving, if there was one. -/
def latestState (c : Conn) (tr : List Step) : Option ConnState :=
  tr.foldl (noteState c) none

/-- The timer whose function made a call. -/
def ReaperEvent.timer : ReaperEvent → Nat
  | ReaperEvent.logClosing i _ _ => i
  | ReaperEvent.goClose i _ => i

/-- Every timer still waiting to expire is the one the map holds for its
connection. -/
def ArmedRegistered (σ : Reaper) : Prop :=
  ∀ i t, σ.timers[i]? = some t → t.status = TimerStatus.armed → σ.m t.conn = some i

/-- Every call in the log was made by a timer whose function has run. -/
def LogDone (σ : Reaper) : Prop :=
  ∀ e ∈ σ.log, ∃ t, σ.timers[e.timer]? = some t ∧ t.status = TimerStatus.done

/-! ## The handlers: `clockStreamHandler` and `registerHandlers` -/

/-- Go: `*tls.ConnectionState`, the value of `r.TLS` on a TLS connection. -/
structure ConnectionState where
  NegotiatedProtocol : String
  deriving DecidableEq, Repr

/-- Go: the fields of `*http.Request` the handlers read; `TLS = none` is
the nil pointer. -/
structure Request where
  TLS : Option ConnectionState
  ProtoMajor : Int
  Path : String
  RemoteAddr : String
  deriving DecidableEq, Repr

/-- The calls a handler makes, in order: on the response writer
(`Header().Set`, a write, `Flush`), the blocking `select`, `log.Printf`
with the line it prints, and `mux2.ServeHTTP(w, r)`. -/
inductive Event where
  | setHeader (key value : String)
  | write (bytes : String)
  | flush
  | wait
  | logPrintf (line : String)
  | mux2ServeHTTP (r : Request)
  deriving DecidableEq, Repr

/-- The channel on which a blocked `select` of the clock handler is woken:
`ticker.C` or `clientGone`. -/
inductive Wake where
  | tick
  | clientGone
  deriving DecidableEq, Repr

/-- The state of a handler call: the calls made so far, whether the
handler has returned, and whether the deferred `ticker.Stop()` has run. -/
structure HandlerRun where
  trace : List Event
  returned : Bool
  tickerStopped : Bool
  deriving DecidableEq, Repr

/-- Go: `strings.Repeat(s, count)`. -/
def Repeat (s : String) : Nat → String
  | 0 => ""
  | n + 1 => s ++ Repeat s n

/-- Source: the string written by the `fmt.Fprintf` of line 35 (the format
has no verb). -/
def prologueHead : String :=
  "# ~1KB of junk to force browsers to start rendering immediately: \n"

/-- Source: the string written by the `io.WriteString` of line 36. -/
def prologuePadding : String :=
  Repeat "# xxxxxxxxxxxxxxxxxxxxxxxxxxxxxxxxxxxxxxxxxxxxxxxxxxxxxxxxxxxxxxxxxxxxxxxxxxxxxx\n" 13

/-- Source: one pass of the `for` loop body up to the `select`:
`fmt.Fprintf(w, "%v\n", time.Now())`, `Flush()`, then the wait.  `clock k`
is the rendering of the `k`-th reading of `time.Now()`. -/
def tickIteration (clock : Nat → String) (k : Nat) : List Event :=
  [Event.write (clock k ++ "\n"), Event.flush, Event.wait]

/-- Source: the `for` loop of `clockStreamHandler`, from its `k`-th pass,
with the wake-ups the `select` receives.  With no wake-up left the handler
stays blocked in the `select`. -/
def clockLoop (clock : Nat → String) (remoteAddr : String) : Nat → List Wake → HandlerRun
  | k, [] =>
    { trace := tickIteration clock k, returned := false, tickerStopped := false }
  | k, Wake.tick :: ws =>
    let rest := clockLoop clock remoteAddr (k + 1) ws
    { rest with trace := tickIteration clock k ++ rest.trace }
  | k, Wake.clientGone :: _ =>
    { trace := tickIteration clock k ++
        [Event.logPrintf ("Client " ++ remoteAddr ++ " disconnected from the clock")]
      returned := true
      tickerStopped := true }

/-- Source: `clockStreamHandler(w, r)`. -/
def clockStreamHandler (clock : Nat → String) (r : Request) (wakes : List Wake) : HandlerRun :=
  let rest := clockLoop clock r.RemoteAddr 0 wakes
  { rest with
    trace := [Event.setHeader "Content-Type" "text/plain",
              Event.write prologueHead,
              Event.write prologuePadding] ++ rest.trace }

/-- Source: the function `registerHandlers` registers for `"/"`. -/
def rootHandler (r : Request) : List Event :=
  match r.TLS with
  | none => []
  | some _ =>
    if r.ProtoMajor = 1 then []
    else [Event.mux2ServeHTTP r]

/-! ## The keepalive listener: `tcpKeepAliveListener.Accept` -/

/-- Go: a `*net.TCPConn`. -/
structure TCPConn where
  fd : Nat
  deriving DecidableEq, Repr

/-- The setters `Accept` calls on the accepted socket. -/
inductive SockCall where
  | SetKeepAlive (keepalive : Bool)
  | SetKeepAlivePeriod (d : Duration)
  deriving DecidableEq, Repr

/-- What the network does during one `Accept`: the outcome of `AcceptTCP`
and the errors, if any, the two setters report. -/
structure AcceptEnv where
  acceptTCP : Except String TCPConn
  setKeepAliveErr : Option String
  setKeepAlivePeriodErr : Option String

/-- The outcome of `Accept`: the named results `c` and `err`, and the
setters called on the socket. -/
structure AcceptResult where
  c : Option TCPConn
  err : Option String
  calls : List SockCall
  deriving DecidableEq, Repr

/-- Source: `func (ln tcpKeepAliveListener) Accept() (c net.Conn, err error)`.
The results of both setters are discarded. -/
def Accept (env : AcceptEnv) : AcceptResult :=
  match env.acceptTCP with
  | Except.error e => { c := none, err := some e, calls := [] }
  | Except.ok tc =>
    let _ := env.setKeepAliveErr
    let _ := env.setKeepAlivePeriodErr
    { c := some tc, err := none,
      calls := [SockCall.SetKeepAlive true, SockCall.SetKeepAlivePeriod (3 * Minute)] }

/-! ## Server wiring: `serveProdTLS`, `serveProd`, `main` -/

/-- Go: the fields of `tls.Config` the program sets. -/
structure TLSConfig where
  Certificates : List String
  NextProtos : List String
  deriving DecidableEq, Repr

/-- Go: the fields of `http.Server` the program touches; an unset
`ConnState` is nil. -/
structure Server where
  Addr : String
  ConnState : Option (Reaper → Conn → ConnState → Reaper)
  TLSConfig : Option TLSConfig

/-- Go: the zero value of `http.Server`. -/
def Server.zero : Server :=
  { Addr := "", ConnState := none, TLSConfig := none }

/-- Go: the appends of `http2.ConfigureServer` to `NextProtos`: a protocol
is appended unless it is listed already. -/
def appendProto (protos : List String) (p : String) : List String :=
  if protos.contains p then protos else protos ++ [p]

/-- Go: `http2.ConfigureServer(srv, conf)`: a nil `TLSConfig` is replaced
by an empty one, then `h2` and `http/1.1` are appended to its `NextProtos`
unless listed already; `Addr` and `ConnState` are left alone. -/
def ConfigureServer (srv : Server) : Server :=
  let cfg : TLSConfig :=
    match srv.TLSConfig with
    | some cfg => cfg
    | none => { Certificates := [], NextProtos := [] }
  { srv with
    TLSConfig := some
      { cfg with NextProtos := appendProto (appendProto cfg.NextProtos "h2") "http/1.1" } }

/-- What the system does at startup: the outcome of `tls.LoadX509KeyPair`
and the error, if any, of `net.Listen`. -/
structure StartupEnv where
  loadX509KeyPair : Except String String
  listenErr : Option String

/-- The call `srv.Serve(tls.NewListener(tcpKeepAliveListener{ln}, ...))`:
the server it is made on and the arguments `net.Listen` bound `ln` with. -/
structure Serving where
  srv : Server
  network : String
  address : String

/-- The outcome of `serveProdTLS`: the lines logged, and the error it
returns early with or the `Serve` call it ends in. -/
structure ServeOutcome where
  logs : List String
  result : Except String Serving

/-- Source: `serveProdTLS`. -/
def serveProdTLS (env : StartupEnv) : ServeOutcome :=
  match env.loadX509KeyPair with
  | Except.error err => { logs := [], result := Except.error err }
  | Except.ok cert =>
    let srv : Server :=
      { Server.zero with TLSConfig := some { Certificates := [cert], NextProtos := [] } }
    let srv := ConfigureServer srv
    match env.listenErr with
    | some err => { logs := [], result := Except.error err }
    | none =>
      let url := "https://127.0.0.1:4430/"
      { logs := ["Listening on " ++ url, "Path:" ++ url ++ "clockstream"]
        result := Except.ok { srv := srv, network := "tcp", address := ":4430" } }

/-- Source: `serveProd`, which runs `serveProdTLS` in a goroutine and
waits for its result. -/
def serveProd (env : StartupEnv) : ServeOutcome :=
  serveProdTLS env

/-- The outcome of `main`: its local variable `srv` as configured, and the
outcome of `serveProd()`. -/
structure MainOutcome where
  srv : Server
  served : ServeOutcome

/-- Source: `main`. -/
def main (env : StartupEnv) : MainOutcome :=
  let srv : Server := Server.zero
  let srv := { srv with Addr := "127.0.0.1:4430" }
  let srv := { srv with ConnState := some idleTimeoutHook }
  { srv := srv, served := serveProd env }

/-! ## Clock handler -/

set_option maxRecDepth 1000000

/-- The loop of the clock handler opens every pass, the first included,
with the timestamp line, the flush and the wait. -/
theorem clockLoop_starts_with_timestamp (clock : Nat → String) (addr : String) (k : Nat)
    (wakes : List Wake) :
    ∃ rest : List Event,
      (clockLoop clock addr k wakes).trace =
        Event.write (clock k ++ "\n") :: Event.flush :: Event.wait :: rest := by
  cases wakes with
  | nil => exact ⟨[], rfl⟩
  | cons w ws =>
    cases w with
    | tick => exact ⟨_, rfl⟩
    | clientGone => exact ⟨_, rfl⟩

/-- C7: in every run of `clockStreamHandler`, whatever the clock, the
request and the wake-ups, the trace opens with the content-type header and
two writes, followed at once by the write of the first timestamp line; the
bytes of the two writes together are 14 newline-terminated lines, the first
the junk comment and each of the 13 others `# ` followed by 78 `x`; the
first line takes 66 bytes, each of the others 81, and the whole 1119 bytes,
which is at least 1040. -/
theorem clockStreamHandler_prologue (clock : Nat → String) (r : Request) (wakes : List Wake) :
    ∃ (a b : String) (rest : List Event),
      (clockStreamHandler clock r wakes).trace =
        Event.setHeader "Content-Type" "text/plain" :: Event.write a :: Event.write b ::
          Event.write (clock 0 ++ "\n") :: rest ∧
      a ++ b = String.join
        (("# ~1KB of junk to force browsers to start rendering immediately: " ::
          List.replicate 13 ("# " ++ String.mk (List.replicate 78 'x'))).map
            (fun l => l ++ "\n")) ∧
      ("# ~1KB of junk to force browsers to start rendering immediately: " ::
          List.replicate 13 ("# " ++ String.mk (List.replicate 78 'x'))).length = 14 ∧
      (∀ l ∈ "# ~1KB of junk to force browsers to start rendering immediately: " ::
          List.replicate 13 ("# " ++ String.mk (List.replicate 78 'x')),
        (l.data.all fun ch => ch != (Char.ofNat 10)) = true) ∧
      ("# ~1KB of junk to force browsers to start rendering immediately: "
          ++ "\n").utf8ByteSize = 66 ∧
      ("# " ++ String.mk (List.replicate 78 'x') ++ "\n").utf8ByteSize = 81 ∧
      (a ++ b).utf8ByteSize = 66 + 13 * 81 ∧
      1040 ≤ (a ++ b).utf8ByteSize := by
  rcases clockLoop_starts_with_timestamp clock r.RemoteAddr 0 wakes with ⟨rest, hrest⟩
  refine ⟨prologueHead, prologuePadding, Event.flush :: Event.wait :: rest, ?_,
    by rfl, by rfl, by decide, by rfl, by rfl, by rfl, by decide⟩
  simp only [clockStreamHandler, hrest, List.cons_append, List.nil_append]

/-- The loop of the clock handler from its `k`-th pass, when `n` ticks
and then the disconnect signal wake it. -/
theorem clockLoop_ticks_then_gone (clock : Nat → String) (addr : String) (n k : Nat)
    (rest : List Wake) :
    clockLoop clock addr k (List.replicate n Wake.tick ++ Wake.clientGone :: rest) =
      { trace := ((List.range' k (n + 1)).map
            (fun j => [Event.write (clock j ++ "\n"), Event.flush, Event.wait])).flatten ++
          [Event.logPrintf ("Client " ++ addr ++ " disconnected from the clock")]
        returned := true
        tickerStopped := true } := by
  induction n generalizing k with
  | zero => simp [clockLoop, tickIteration, List.range']
  | succ n ih =>
    rw [List.replicate_succ, List.cons_append, clockLoop, ih (k + 1),
      List.range'_succ k (n + 1)]
    simp [tickIteration]

/-- C8: woken by `n` ticks and then by the disconnect signal, the handler
sets the content type, writes the prologue, makes exactly `n + 1` passes of
(write a timestamp line, flush, wait), logs the disconnect line once, and
returns with the ticker stopped; what wake-ups would follow is never looked
at. -/
theorem clockStreamHandler_trace (clock : Nat → String) (r : Request) (n : Nat)
    (rest : List Wake) :
    clockStreamHandler clock r (List.replicate n Wake.tick ++ Wake.clientGone :: rest) =
      { trace :=
          [Event.setHeader "Content-Type" "text/plain",
           Event.write prologueHead, Event.write prologuePadding] ++
          ((List.range (n + 1)).map
            (fun j => [Event.write (clock j ++ "\n"), Event.flush, Event.wait])).flatten ++
          [Event.logPrintf ("Client " ++ r.RemoteAddr ++ " disconnected from the clock")]
        returned := true
        tickerStopped := true } := by
  simp only [clockStreamHandler, clockLoop_ticks_then_gone, List.range_eq_range',
    List.append_assoc]

/-! ## Root handler -/

/-- C5, as stated, fails: a TLS request whose protocol major version is
3 is forwarded to `mux2`, although its major version is not 2. -/
theorem rootHandler_forwards_major_three :
    ¬ (∀ r : Request,
        rootHandler r = [Event.mux2ServeHTTP r] ↔ (r.TLS ≠ none ∧ r.ProtoMajor = 2)) := by
  intro h
  have h3 := (h { TLS := some { NegotiatedProtocol := "" }, ProtoMajor := 3,
                  Path := "/clockstream", RemoteAddr := "127.0.0.1:50000" }).mp (by decide)
  exact absurd h3.2 (by decide)

/-- C5, amended: the root handler forwards `r` to `mux2`, and does nothing
else, exactly when `r.TLS` is non-nil and the protocol major version is not
1; for every other request it returns having made no call at all.  So a
request of major version 2 is forwarded exactly when it came over TLS, and a
request of major version 1 never is. -/
theorem rootHandler_forwards_iff (r : Request) :
    (rootHandler r = [Event.mux2ServeHTTP r] ↔ (r.TLS ≠ none ∧ r.ProtoMajor ≠ 1)) ∧
    (rootHandler r = [] ↔ ¬ (r.TLS ≠ none ∧ r.ProtoMajor ≠ 1)) ∧
    (rootHandler { r with ProtoMajor := 2 } =
      if r.TLS.isSome then [Event.mux2ServeHTTP { r with ProtoMajor := 2 }] else []) ∧
    rootHandler { r with ProtoMajor := 1 } = [] := by
  unfold rootHandler
  cases hT : r.TLS with
  | none => simp
  | some cs =>
    by_cases hp : r.ProtoMajor = 1 <;> simp [hp]

/-! ## Keepalive listener -/

/-- C9: when `AcceptTCP` fails with `e`, `Accept` returns no connection
and `e`, and calls no setter; when it succeeds with `tc`, `Accept` asks for
keepalive and a period of 3 minutes (180 s, in nanoseconds) on the socket and
returns `tc` with a nil error, whatever the two setters report. -/
theorem Accept_outcomes (k₁ k₂ : Option String) :
    (∀ e : String,
      Accept { acceptTCP := Except.error e, setKeepAliveErr := k₁, setKeepAlivePeriodErr := k₂ } =
        { c := none, err := some e, calls := [] }) ∧
    (∀ tc : TCPConn,
      Accept { acceptTCP := Except.ok tc, setKeepAliveErr := k₁, setKeepAlivePeriodErr := k₂ } =
        { c := some tc, err := none,
          calls := [SockCall.SetKeepAlive true,
                    SockCall.SetKeepAlivePeriod (3 * 60 * 1000000000)] }) := by
  constructor
  · intro e; rfl
  · intro tc; rfl

/-! ## Server wiring -/

/-- C4: at a startup where the key pair loads and the port binds, the
server on which `Serve` is called has a nil `ConnState`; the hook of
`idleTimeoutHook` sits on the local `srv` of `main`, which serves nothing. -/
theorem served_server_has_no_hook (cert : String) :
    ∃ s : Serving,
      (main { loadX509KeyPair := Except.ok cert, listenErr := none }).served.result
        = Except.ok s ∧
      s.srv.ConnState.isNone = true ∧
      (main { loadX509KeyPair := Except.ok cert, listenErr := none }).srv.ConnState.isSome
        = true :=
  ⟨_, rfl, rfl, rfl⟩

/-- C10: at a startup where the key pair loads and the port binds, the
listener is bound with `net.Listen("tcp", ":4430")`, an address without a
host, while the log announces `127.0.0.1:4430`; that address is only set on
the local `srv` of `main`, and the serving server has an empty `Addr`. -/
theorem listener_bound_without_host (cert : String) :
    ∃ s : Serving,
      (main { loadX509KeyPair := Except.ok cert, listenErr := none }).served.result
        = Except.ok s ∧
      s.network = "tcp" ∧ s.address = ":4430" ∧ s.address ≠ "127.0.0.1:4430" ∧
      s.srv.Addr = "" ∧
      (main { loadX509KeyPair := Except.ok cert, listenErr := none }).srv.Addr
        = "127.0.0.1:4430" ∧
      (main { loadX509KeyPair := Except.ok cert, listenErr := none }).served.logs =
        ["Listening on https://127.0.0.1:4430/", "Path:https://127.0.0.1:4430/clockstream"] :=
  ⟨_, rfl, rfl, rfl, (by decide : ":4430" ≠ "127.0.0.1:4430"), rfl, rfl, rfl⟩

/-! ## Idle reaper: basic facts -/

theorem run_cons (σ : Reaper) (s : Step) (tr : List Step) :
    run σ (s :: tr) = run (step σ s) tr := rfl

theorem run_append (σ : Reaper) (tr post : List Step) :
    run σ (tr ++ post) = run (run σ tr) post := by
  simp [run]

theorem latestState_append_singleton (c : Conn) (tr : List Step) (s : Step) :
    latestState c (tr ++ [s]) = noteState c (latestState c tr) s := by
  simp [latestState]

theorem Stop_status_ne_armed (t : Timer) : t.Stop.status ≠ TimerStatus.armed := by
  unfold Timer.Stop
  split
  · simp
  · assumption

theorem Stop_of_armed (t : Timer) (h : t.status = TimerStatus.armed) :
    t.Stop = { t with status := TimerStatus.stopped } := by
  simp [Timer.Stop, h]

theorem Stop_of_not_armed (t : Timer) (h : t.status ≠ TimerStatus.armed) : t.Stop = t := by
  simp [Timer.Stop, h]

/-- Stopping timer `i` applies `Stop` to the timer at index `i` and leaves every
other timer as it is. -/
theorem getElem?_stopTimer (ts : List Timer) (i j : Nat) :
    (stopTimer ts i)[j]? = if j = i then (ts[j]?).map Timer.Stop else ts[j]? := by
  unfold stopTimer
  cases h : ts[i]? with
  | none =>
    by_cases hj : j = i
    · subst hj; simp [h]
    · simp [hj]
  | some t =>
    by_cases hj : j = i
    · subst hj
      have hlt : j < ts.length := (List.getElem?_eq_some_iff.mp h).1
      simp [h, List.getElem?_set_self hlt]
    · simp [hj, List.getElem?_set_ne (Ne.symm hj)]

theorem length_stopTimer (ts : List Timer) (i : Nat) : (stopTimer ts i).length = ts.length := by
  unfold stopTimer
  cases ts[i]? <;> simp

theorem cancelEntry_m_self (σ : Reaper) (c : Conn) : (cancelEntry σ c).m c = none := by
  unfold cancelEntry
  cases h : σ.m c <;> simp [mapDelete, h]

theorem cancelEntry_m_other (σ : Reaper) (c k : Conn) (hk : k ≠ c) :
    (cancelEntry σ c).m k = σ.m k := by
  unfold cancelEntry
  cases h : σ.m c <;> simp [mapDelete, hk]

theorem cancelEntry_length (σ : Reaper) (c : Conn) :
    (cancelEntry σ c).timers.length = σ.timers.length := by
  unfold cancelEntry
  cases h : σ.m c <;> simp [length_stopTimer]

theorem cancelEntry_now (σ : Reaper) (c : Conn) : (cancelEntry σ c).now = σ.now := by
  unfold cancelEntry
  cases h : σ.m c <;> simp

theorem cancelEntry_log (σ : Reaper) (c : Conn) : (cancelEntry σ c).log = σ.log := by
  unfold cancelEntry
  cases h : σ.m c <;> simp

theorem cancelEntry_of_some (σ : Reaper) (c : Conn) (i : Nat) (h : σ.m c = some i) :
    (cancelEntry σ c).timers = stopTimer σ.timers i := by
  simp [cancelEntry, h]

theorem hook_of_some (σ : Reaper) (c : Conn) (cs : ConnState) (d : Duration)
    (h : switchDuration cs = some d) :
    idleTimeoutHook σ c cs = armEntry (cancelEntry σ c) c d := by
  simp [idleTimeoutHook, h]

theorem hook_of_none (σ : Reaper) (c : Conn) (cs : ConnState)
    (h : switchDuration cs = none) :
    idleTimeoutHook σ c cs = cancelEntry σ c := by
  simp [idleTimeoutHook, h]

theorem switchDuration_eq_none (cs : ConnState) (h1 : cs ≠ StateNew) (h2 : cs ≠ StateIdle)
    (h3 : cs ≠ StateActive) : switchDuration cs = none := by
  simp [switchDuration, h1, h2, h3]

theorem switchDuration_eq_some (cs : ConnState) (d : Duration) (h : switchDuration cs = some d) :
    cs = StateNew ∨ cs = StateIdle ∨ cs = StateActive := by
  unfold switchDuration at h
  split at h
  · rename_i h1; rcases h1 with h1 | h1 <;> simp [h1]
  · split at h
    · rename_i h2; simp [h2]
    · simp at h

/-! ## Idle reaper: armed timers are registered -/

/-- The first statement of the hook keeps armed timers registered. -/
theorem cancelEntry_armedRegistered (σ : Reaper) (c : Conn) (hσ : ArmedRegistered σ) :
    ArmedRegistered (cancelEntry σ c) := by
  intro j t hj ha
  cases h : σ.m c with
  | none =>
    have hce : cancelEntry σ c = σ := by simp [cancelEntry, h]
    rw [hce] at hj ⊢
    exact hσ j t hj ha
  | some i =>
    rw [cancelEntry_of_some σ c i h, getElem?_stopTimer] at hj
    by_cases hji : j = i
    · rw [if_pos hji] at hj
      cases hts : σ.timers[j]? with
      | none => simp [hts] at hj
      | some t0 =>
        simp [hts] at hj
        exact absurd (hj ▸ ha) (Stop_status_ne_armed t0)
    · rw [if_neg hji] at hj
      have hm := hσ j t hj ha
      have hc : t.conn ≠ c := by
        intro hc
        rw [hc, h] at hm
        exact hji (Option.some.inj hm).symm
      rw [cancelEntry_m_other σ c t.conn hc]
      exact hm

/-- A connection without a map entry has no outstanding timer. -/
theorem armedRegistered_no_armed (σ : Reaper) (c : Conn) (hσ : ArmedRegistered σ)
    (hm : σ.m c = none) : outstanding σ c = [] := by
  unfold outstanding
  rw [List.filter_eq_nil_iff]
  intro t ht hp
  rcases List.mem_iff_getElem?.mp ht with ⟨j, hj⟩
  simp only [decide_eq_true_eq] at hp
  have := hσ j t hj hp.2
  rw [hp.1, hm] at this
  cases this

/-- Arming a timer for a connection without a map entry keeps armed timers
registered. -/
theorem armEntry_armedRegistered (σ : Reaper) (c : Conn) (d : Duration)
    (hσ : ArmedRegistered σ) (hm : σ.m c = none) :
    ArmedRegistered (armEntry σ c d) := by
  intro j t hj ha
  simp only [armEntry] at hj ⊢
  rw [List.getElem?_append] at hj
  by_cases hlt : j < σ.timers.length
  · rw [if_pos hlt] at hj
    have hmj := hσ j t hj ha
    have hc : t.conn ≠ c := by
      intro hc
      rw [hc, hm] at hmj
      cases hmj
    simp [mapStore, hc, hmj]
  · rw [if_neg hlt] at hj
    have h0 : j - σ.timers.length = 0 := by
      by_contra hne
      have : 1 ≤ j - σ.timers.length := Nat.one_le_iff_ne_zero.mpr hne
      rw [List.getElem?_eq_none (by simpa using this)] at hj
      cases hj
    rw [h0] at hj
    simp at hj
    have hjl : j = σ.timers.length := by omega
    subst hj
    simp [mapStore, hjl]

theorem outstanding_armEntry (σ : Reaper) (c : Conn) (d : Duration)
    (hσ : ArmedRegistered σ) (hm : σ.m c = none) :
    outstanding (armEntry σ c d) c =
      [{ conn := c, d := d, deadline := σ.now + d, status := TimerStatus.armed }] := by
  have h0 := armedRegistered_no_armed σ c hσ hm
  unfold outstanding at h0 ⊢
  simp only [armEntry, List.filter_append, h0, List.nil_append]
  simp [List.filter]

/-- Replacing a timer by one that is not armed keeps armed timers registered. -/
theorem set_armedRegistered (σ σ' : Reaper) (i : Nat) (u : Timer) (hσ : ArmedRegistered σ)
    (hu : u.status ≠ TimerStatus.armed) (hm : σ'.m = σ.m)
    (ht : σ'.timers = σ.timers.set i u) : ArmedRegistered σ' := by
  intro j t hj ha
  rw [ht, List.getElem?_set] at hj
  rw [hm]
  by_cases hij : i = j
  · rw [if_pos hij] at hj
    split at hj
    · cases hj
      exact absurd ha hu
    · cases hj
  · rw [if_neg hij] at hj
    exact hσ j t hj ha

theorem hook_armedRegistered (σ : Reaper) (c : Conn) (cs : ConnState)
    (hσ : ArmedRegistered σ) : ArmedRegistered (idleTimeoutHook σ c cs) := by
  cases h : switchDuration cs with
  | none =>
    rw [hook_of_none σ c cs h]
    exact cancelEntry_armedRegistered σ c hσ
  | some d =>
    rw [hook_of_some σ c cs d h]
    exact armEntry_armedRegistered _ c d (cancelEntry_armedRegistered σ c hσ)
      (cancelEntry_m_self σ c)

theorem step_armedRegistered (σ : Reaper) (s : Step) (hσ : ArmedRegistered σ) :
    ArmedRegistered (step σ s) := by
  cases s with
  | advance dt => exact hσ
  | notify c cs => exact hook_armedRegistered σ c cs hσ
  | expire i =>
    simp only [step, expireTimer]
    cases h : σ.timers[i]? with
    | none => exact hσ
    | some t =>
      simp only
      split
      · exact set_armedRegistered σ _ i _ hσ (by simp) rfl rfl
      · exact hσ
  | callback i =>
    simp only [step, runCallback]
    cases h : σ.timers[i]? with
    | none => exact hσ
    | some t =>
      simp only
      split
      · exact set_armedRegistered σ _ i _ hσ (by simp) rfl rfl
      · exact hσ

theorem run_armedRegistered (tr : List Step) (σ : Reaper) (hσ : ArmedRegistered σ) :
    ArmedRegistered (run σ tr) := by
  induction tr generalizing σ with
  | nil => exact hσ
  | cons s tr ih => exact ih (step σ s) (step_armedRegistered σ s hσ)

theorem init_armedRegistered : ArmedRegistered Reaper.init := by
  intro i t hi
  simp [Reaper.init] at hi

/-- In every state the reaper can reach, armed timers are registered. -/
theorem reachable_armedRegistered (tr : List Step) : ArmedRegistered (run Reaper.init tr) :=
  run_armedRegistered tr _ init_armedRegistered

/-- A list in which at most one position satisfies `p` has at most one element
left after filtering by `p`. -/
theorem filter_length_le_one {α : Type} (p : α → Bool) (l : List α)
    (h : ∀ (i j : Nat) (a b : α), l[i]? = some a → l[j]? = some b → p a = true →
      p b = true → i = j) :
    (l.filter p).length ≤ 1 := by
  induction l with
  | nil => simp
  | cons x xs ih =>
    have hxs : ∀ (i j : Nat) (a b : α), xs[i]? = some a → xs[j]? = some b → p a = true →
        p b = true → i = j := by
      intro i j a b hi hj ha hb
      have := h (i + 1) (j + 1) a b (by simpa using hi) (by simpa using hj) ha hb
      omega
    by_cases hx : p x = true
    · have hnil : xs.filter p = [] := by
        rw [List.filter_eq_nil_iff]
        intro a ha hpa
        rcases List.mem_iff_getElem?.mp ha with ⟨j, hj⟩
        have := h 0 (j + 1) x a (by simp) (by simpa using hj) hx hpa
        omega
      simp [List.filter, hx, hnil]
    · have hx2 : p x = false := by simpa using hx
      simp only [List.filter, hx2]
      exact ih hxs

theorem hook_timers_new (σ : Reaper) (c : Conn) (cs : ConnState) (d : Duration)
    (h : switchDuration cs = some d) :
    (idleTimeoutHook σ c cs).timers = (cancelEntry σ c).timers ++
      [{ conn := c, d := d, deadline := σ.now + d, status := TimerStatus.armed }] := by
  rw [hook_of_some σ c cs d h]
  simp [armEntry, cancelEntry_now]

theorem hook_m_new (σ : Reaper) (c : Conn) (cs : ConnState) (d : Duration)
    (h : switchDuration cs = some d) :
    (idleTimeoutHook σ c cs).m c = some σ.timers.length := by
  rw [hook_of_some σ c cs d h]
  simp [armEntry, mapStore, cancelEntry_length]

theorem hook_timer_new (σ : Reaper) (c : Conn) (cs : ConnState) (d : Duration)
    (h : switchDuration cs = some d) :
    (idleTimeoutHook σ c cs).timers[σ.timers.length]? =
      some { conn := c, d := d, deadline := σ.now + d, status := TimerStatus.armed } := by
  rw [hook_timers_new σ c cs d h, ← cancelEntry_length σ c]
  exact List.getElem?_concat_length _ _

theorem hook_outstanding (σ : Reaper) (c : Conn) (cs : ConnState) (d : Duration)
    (hσ : ArmedRegistered σ) (h : switchDuration cs = some d) :
    outstanding (idleTimeoutHook σ c cs) c =
      [{ conn := c, d := d, deadline := σ.now + d, status := TimerStatus.armed }] := by
  rw [hook_of_some σ c cs d h,
    outstanding_armEntry _ c d (cancelEntry_armedRegistered σ c hσ) (cancelEntry_m_self σ c),
    cancelEntry_now]

theorem hook_now (σ : Reaper) (c : Conn) (cs : ConnState) :
    (idleTimeoutHook σ c cs).now = σ.now := by
  unfold idleTimeoutHook
  cases switchDuration cs <;> simp [armEntry, cancelEntry_now]

theorem hook_log (σ : Reaper) (c : Conn) (cs : ConnState) :
    (idleTimeoutHook σ c cs).log = σ.log := by
  unfold idleTimeoutHook
  cases switchDuration cs <;> simp [armEntry, cancelEntry_log]

theorem hook_m_other (σ : Reaper) (c k : Conn) (cs : ConnState) (hk : k ≠ c) :
    (idleTimeoutHook σ c cs).m k = σ.m k := by
  unfold idleTimeoutHook
  cases switchDuration cs <;> simp [armEntry, mapStore, hk, cancelEntry_m_other]

theorem hook_length (σ : Reaper) (c : Conn) (cs : ConnState) (d : Duration)
    (h : switchDuration cs = some d) :
    (idleTimeoutHook σ c cs).timers.length = σ.timers.length + 1 := by
  rw [hook_timers_new σ c cs d h]
  simp [cancelEntry_length]

theorem expireTimer_m (σ : Reaper) (i : Nat) : (expireTimer σ i).m = σ.m := by
  unfold expireTimer
  cases σ.timers[i]? with
  | none => rfl
  | some t => simp only; split <;> rfl

theorem expireTimer_log (σ : Reaper) (i : Nat) : (expireTimer σ i).log = σ.log := by
  unfold expireTimer
  cases σ.timers[i]? with
  | none => rfl
  | some t => simp only; split <;> rfl

theorem runCallback_m (σ : Reaper) (i : Nat) : (runCallback σ i).m = σ.m := by
  unfold runCallback
  cases σ.timers[i]? with
  | none => rfl
  | some t => simp only; split <;> rfl

/-- In every state the reaper can reach, a connection with a map entry was last
notified with a state that arms a timer. -/
theorem reachable_registered_eligible (tr : List Step) (c : Conn) (i : Nat)
    (hm : (run Reaper.init tr).m c = some i) :
    ∃ cs d, latestState c tr = some cs ∧ switchDuration cs = some d := by
  induction tr using List.reverseRecOn generalizing i with
  | nil => simp [run, Reaper.init] at hm
  | append_singleton tr s ih =>
    rw [run_append] at hm
    rw [latestState_append_singleton]
    cases s with
    | advance dt => exact ih i hm
    | notify k cs =>
      have hm2 : (idleTimeoutHook (run Reaper.init tr) k cs).m c = some i := hm
      by_cases hk : k = c
      · subst hk
        cases h : switchDuration cs with
        | none =>
          rw [hook_of_none _ k cs h, cancelEntry_m_self] at hm2
          cases hm2
        | some d => exact ⟨cs, d, by simp [noteState], h⟩
      · rw [hook_m_other _ k c cs (Ne.symm hk)] at hm2
        simpa [noteState, hk] using ih i hm2
    | expire j =>
      have hm2 : (expireTimer (run Reaper.init tr) j).m c = some i := hm
      rw [expireTimer_m] at hm2
      exact ih i hm2
    | callback j =>
      have hm2 : (runCallback (run Reaper.init tr) j).m c = some i := hm
      rw [runCallback_m] at hm2
      exact ih i hm2

/-! ## Idle reaper: the claims -/

/-- C1: after any interleaving of notifications, clock advances, timer
expiries and timer functions, every connection `c` has at most one
outstanding Entry; and when a state that arms a timer is notified twice in a
row for `c`, the timer armed by the first notification is stopped by the
second, and the one armed by the second is the only outstanding Entry. -/
theorem outstanding_at_most_one (tr : List Step) (c : Conn) :
    (outstanding (run Reaper.init tr) c).length ≤ 1 ∧
    ∀ (cs : ConnState) (d : Duration), switchDuration cs = some d →
      (idleTimeoutHook (run Reaper.init tr) c cs).timers[(run Reaper.init tr).timers.length]? =
        some { conn := c, d := d, deadline := (run Reaper.init tr).now + d,
               status := TimerStatus.armed } ∧
      (idleTimeoutHook (idleTimeoutHook (run Reaper.init tr) c cs) c cs).timers[
          (run Reaper.init tr).timers.length]? =
        some { conn := c, d := d, deadline := (run Reaper.init tr).now + d,
               status := TimerStatus.stopped } ∧
      outstanding (idleTimeoutHook (idleTimeoutHook (run Reaper.init tr) c cs) c cs) c =
        [{ conn := c, d := d, deadline := (run Reaper.init tr).now + d,
           status := TimerStatus.armed }] := by
  have hσ := reachable_armedRegistered tr
  refine ⟨?_, ?_⟩
  · apply filter_length_le_one
    intro i j a b hi hj ha hb
    simp only [decide_eq_true_eq] at ha hb
    have h1 := hσ i a hi ha.2
    have h2 := hσ j b hj hb.2
    rw [ha.1] at h1
    rw [hb.1, h1] at h2
    exact Option.some.inj h2
  · intro cs d h
    refine ⟨hook_timer_new _ c cs d h, ?_, ?_⟩
    · rw [hook_timers_new _ c cs d h,
        List.getElem?_append_left (by rw [cancelEntry_length, hook_length _ c cs d h]; omega),
        cancelEntry_of_some _ c _ (hook_m_new _ c cs d h), getElem?_stopTimer, if_pos rfl,
        hook_timer_new _ c cs d h]
      simp [Timer.Stop]
    · rw [hook_outstanding _ c cs d (hook_armedRegistered _ c cs hσ) h, hook_now]

/-- C1 at a concrete input: two `StateIdle` notifications in a row for
connection 7 on a fresh reaper. -/
theorem outstanding_at_most_one_witness :
    switchDuration StateIdle = some idleTimeout ∧
    outstanding (idleTimeoutHook (idleTimeoutHook (run Reaper.init []) 7 StateIdle) 7 StateIdle) 7 =
      [{ conn := 7, d := idleTimeout, deadline := (run Reaper.init []).now + idleTimeout,
         status := TimerStatus.armed }] :=
  ⟨by decide, ((outstanding_at_most_one [] 7).2 StateIdle idleTimeout (by decide)).2.2⟩

/-- C2: in any state the reaper can reach, a notification `(c, s)` leaves
the map holding for `c` one new timer, the only outstanding Entry of `c`,
whose deadline is the time of this notification plus 5 minutes
(300000000000 ns) when `s` is New or Idle, and plus 10 minutes
(600000000000 ns) when `s` is Active; two Idle notifications `dt` apart
(1 ms, say) leave a single Entry due 5 minutes after the second. -/
theorem hook_deadline (tr : List Step) (c : Conn) :
    ((idleTimeoutHook (run Reaper.init tr) c StateNew).m c
        = some (run Reaper.init tr).timers.length ∧
      (idleTimeoutHook (run Reaper.init tr) c StateNew).timers[(run Reaper.init tr).timers.length]?
        = some { conn := c, d := 300000000000,
                 deadline := (run Reaper.init tr).now + 300000000000,
                 status := TimerStatus.armed } ∧
      outstanding (idleTimeoutHook (run Reaper.init tr) c StateNew) c
        = [{ conn := c, d := 300000000000,
             deadline := (run Reaper.init tr).now + 300000000000,
             status := TimerStatus.armed }]) ∧
    ((idleTimeoutHook (run Reaper.init tr) c StateIdle).m c
        = some (run Reaper.init tr).timers.length ∧
      (idleTimeoutHook (run Reaper.init tr) c StateIdle).timers[(run Reaper.init tr).timers.length]?
        = some { conn := c, d := 300000000000,
                 deadline := (run Reaper.init tr).now + 300000000000,
                 status := TimerStatus.armed } ∧
      outstanding (idleTimeoutHook (run Reaper.init tr) c StateIdle) c
        = [{ conn := c, d := 300000000000,
             deadline := (run Reaper.init tr).now + 300000000000,
             status := TimerStatus.armed }]) ∧
    ((idleTimeoutHook (run Reaper.init tr) c StateActive).m c
        = some (run Reaper.init tr).timers.length ∧
      (idleTimeoutHook (run Reaper.init tr) c StateActive).timers[(run Reaper.init tr).timers.length]?
        = some { conn := c, d := 600000000000,
                 deadline := (run Reaper.init tr).now + 600000000000,
                 status := TimerStatus.armed } ∧
      outstanding (idleTimeoutHook (run Reaper.init tr) c StateActive) c
        = [{ conn := c, d := 600000000000,
             deadline := (run Reaper.init tr).now + 600000000000,
             status := TimerStatus.armed }]) ∧
    (∀ dt : Duration,
      outstanding (run (run Reaper.init tr)
          [Step.notify c StateIdle, Step.advance dt, Step.notify c StateIdle]) c
        = [{ conn := c, d := 300000000000,
             deadline := (run Reaper.init tr).now + dt + 300000000000,
             status := TimerStatus.armed }]) := by
  have hσ := reachable_armedRegistered tr
  have hNew : switchDuration StateNew = some 300000000000 := by decide
  have hIdle : switchDuration StateIdle = some 300000000000 := by decide
  have hActive : switchDuration StateActive = some 600000000000 := by decide
  refine ⟨⟨hook_m_new _ c _ _ hNew, hook_timer_new _ c _ _ hNew,
      hook_outstanding _ c _ _ hσ hNew⟩,
    ⟨hook_m_new _ c _ _ hIdle, hook_timer_new _ c _ _ hIdle,
      hook_outstanding _ c _ _ hσ hIdle⟩,
    ⟨hook_m_new _ c _ _ hActive, hook_timer_new _ c _ _ hActive,
      hook_outstanding _ c _ _ hσ hActive⟩, ?_⟩
  intro dt
  have hrun : run (run Reaper.init tr)
      [Step.notify c StateIdle, Step.advance dt, Step.notify c StateIdle] =
      idleTimeoutHook (step (idleTimeoutHook (run Reaper.init tr) c StateIdle)
        (Step.advance dt)) c StateIdle := rfl
  rw [hrun, hook_outstanding _ c _ _
    (step_armedRegistered _ _ (hook_armedRegistered _ c _ hσ)) hIdle]
  simp [step, hook_now]

/-- C3: after any interleaving, if the most recent notification for `c`
carried a state other than New, Idle and Active, the map holds nothing for
`c` and no timer of `c` is waiting to expire; whenever the map holds a timer
for `c`, the latest state notified for `c` is New, Idle or Active; and a
notification for `c` with another state calls `Stop` on the timer the map
held for `c`, removes it from the map and arms nothing. -/
theorem registry_only_eligible (tr : List Step) (c : Conn) :
    (∀ cs : ConnState, latestState c tr = some cs →
        cs ≠ StateNew → cs ≠ StateIdle → cs ≠ StateActive →
        (run Reaper.init tr).m c = none ∧ outstanding (run Reaper.init tr) c = []) ∧
    (∀ i : Nat, (run Reaper.init tr).m c = some i →
        latestState c tr = some StateNew ∨ latestState c tr = some StateIdle ∨
          latestState c tr = some StateActive) ∧
    (∀ (cs : ConnState) (i : Nat), cs ≠ StateNew → cs ≠ StateIdle → cs ≠ StateActive →
        (run Reaper.init tr).m c = some i →
        (idleTimeoutHook (run Reaper.init tr) c cs).timers
            = stopTimer (run Reaper.init tr).timers i ∧
          (idleTimeoutHook (run Reaper.init tr) c cs).m c = none ∧
          outstanding (idleTimeoutHook (run Reaper.init tr) c cs) c = []) := by
  have hσ := reachable_armedRegistered tr
  refine ⟨?_, ?_, ?_⟩
  · intro cs hl h1 h2 h3
    cases hm : (run Reaper.init tr).m c with
    | none => exact ⟨rfl, armedRegistered_no_armed _ c hσ hm⟩
    | some i =>
      rcases reachable_registered_eligible tr c i hm with ⟨cs2, d, hl2, hd⟩
      rw [hl] at hl2
      cases hl2
      rw [switchDuration_eq_none cs h1 h2 h3] at hd
      cases hd
  · intro i hm
    rcases reachable_registered_eligible tr c i hm with ⟨cs, d, hl, hd⟩
    rcases switchDuration_eq_some cs d hd with h | h | h <;> simp [hl, h]
  · intro cs i h1 h2 h3 hm
    have hn := switchDuration_eq_none cs h1 h2 h3
    rw [hook_of_none _ c cs hn]
    exact ⟨cancelEntry_of_some _ c i hm, cancelEntry_m_self _ c,
      armedRegistered_no_armed _ c (cancelEntry_armedRegistered _ c hσ) (cancelEntry_m_self _ c)⟩

/-- C3 at a concrete input: connection 7 goes idle and is then closed. -/
theorem registry_only_eligible_witness :
    latestState 7 [Step.notify 7 StateIdle, Step.notify 7 StateClosed] = some StateClosed ∧
    StateClosed ≠ StateNew ∧ StateClosed ≠ StateIdle ∧ StateClosed ≠ StateActive ∧
    (run Reaper.init [Step.notify 7 StateIdle, Step.notify 7 StateClosed]).m 7 = none ∧
    outstanding (run Reaper.init [Step.notify 7 StateIdle, Step.notify 7 StateClosed]) 7 = [] :=
  ⟨by decide, by decide, by decide, by decide,
    (registry_only_eligible [Step.notify 7 StateIdle, Step.notify 7 StateClosed] 7).1
      StateClosed (by decide) (by decide) (by decide) (by decide)⟩

/-! ## Idle reaper: timers that were stopped, timers that expired -/

/-- A timer that was stopped, or whose function has run, is never changed again. -/
theorem step_settled (σ : Reaper) (s : Step) (i : Nat) (t : Timer)
    (hi : σ.timers[i]? = some t) (h1 : t.status ≠ TimerStatus.armed)
    (h2 : t.status ≠ TimerStatus.expired) :
    (step σ s).timers[i]? = some t := by
  have hlt : i < σ.timers.length := (List.getElem?_eq_some_iff.mp hi).1
  cases s with
  | advance dt => exact hi
  | notify c cs =>
    have hc : (cancelEntry σ c).timers[i]? = some t := by
      unfold cancelEntry
      cases hm : σ.m c with
      | none => exact hi
      | some j =>
        simp only
        rw [getElem?_stopTimer]
        by_cases hij : i = j
        · rw [if_pos hij, hi]
          simp [Stop_of_not_armed t h1]
        · rw [if_neg hij, hi]
    show (idleTimeoutHook σ c cs).timers[i]? = some t
    unfold idleTimeoutHook
    cases switchDuration cs with
    | none => exact hc
    | some d =>
      simp only [armEntry]
      rw [List.getElem?_append_left (by rw [cancelEntry_length]; exact hlt)]
      exact hc
  | expire j =>
    show (expireTimer σ j).timers[i]? = some t
    unfold expireTimer
    cases hj : σ.timers[j]? with
    | none => exact hi
    | some u =>
      simp only
      split
      · rename_i hu
        have hij : j ≠ i := by
          intro hij
          rw [hij, hi] at hj
          cases hj
          exact h1 hu.1
        simp only
        rw [List.getElem?_set_ne hij]
        exact hi
      · exact hi
  | callback j =>
    show (runCallback σ j).timers[i]? = some t
    unfold runCallback
    cases hj : σ.timers[j]? with
    | none => exact hi
    | some u =>
      simp only
      split
      · rename_i hu
        have hij : j ≠ i := by
          intro hij
          rw [hij, hi] at hj
          cases hj
          exact h2 hu
        simp only
        rw [List.getElem?_set_ne hij]
        exact hi
      · exact hi

/-- Every call a step adds to the log is made by the function of a timer that
had expired, and that step marks the timer done. -/
theorem step_log (σ : Reaper) (s : Step) (e : ReaperEvent) (he : e ∈ (step σ s).log) :
    e ∈ σ.log ∨
      ∃ t, σ.timers[e.timer]? = some t ∧ t.status = TimerStatus.expired ∧
        (step σ s).timers[e.timer]? = some { t with status := TimerStatus.done } := by
  cases s with
  | advance dt => exact Or.inl he
  | notify c cs =>
    have he2 : e ∈ (idleTimeoutHook σ c cs).log := he
    rw [hook_log] at he2
    exact Or.inl he2
  | expire j =>
    have he2 : e ∈ (expireTimer σ j).log := he
    rw [expireTimer_log] at he2
    exact Or.inl he2
  | callback j =>
    have he2 : e ∈ (runCallback σ j).log := he
    show e ∈ σ.log ∨ ∃ t, σ.timers[e.timer]? = some t ∧ t.status = TimerStatus.expired ∧
        (runCallback σ j).timers[e.timer]? = some { t with status := TimerStatus.done }
    unfold runCallback at he2 ⊢
    cases hj : σ.timers[j]? with
    | none =>
      rw [hj] at he2
      exact Or.inl he2
    | some u =>
      rw [hj] at he2
      simp only at he2 ⊢
      by_cases hu : u.status = TimerStatus.expired
      · rw [if_pos hu] at he2 ⊢
        simp only [List.mem_append, List.mem_cons, List.mem_singleton] at he2
        have hlt : j < σ.timers.length := (List.getElem?_eq_some_iff.mp hj).1
        rcases he2 with he2 | he2 | he2 | he2
        · exact Or.inl he2
        · subst he2
          exact Or.inr ⟨u, hj, hu, by simp [ReaperEvent.timer, List.getElem?_set_self hlt]⟩
        · subst he2
          exact Or.inr ⟨u, hj, hu, by simp [ReaperEvent.timer, List.getElem?_set_self hlt]⟩
        · cases he2
      · rw [if_neg hu] at he2
        exact Or.inl he2

theorem step_logDone (σ : Reaper) (s : Step) (hσ : LogDone σ) : LogDone (step σ s) := by
  intro e he
  rcases step_log σ s e he with h | ⟨t, _, _, h⟩
  · rcases hσ e h with ⟨t, ht, hd⟩
    exact ⟨t, step_settled σ s _ t ht (by simp [hd]) (by simp [hd]), hd⟩
  · exact ⟨_, h, rfl⟩

theorem run_logDone (tr : List Step) (σ : Reaper) (hσ : LogDone σ) : LogDone (run σ tr) := by
  induction tr generalizing σ with
  | nil => exact hσ
  | cons s tr ih => exact ih (step σ s) (step_logDone σ s hσ)

/-- In every state the reaper can reach, every logged call was made by a timer
whose function has run. -/
theorem reachable_logDone (tr : List Step) : LogDone (run Reaper.init tr) :=
  run_logDone tr _ (by intro e he; simp [Reaper.init] at he)

/-- After a timer was stopped, no interleaving adds a call of its function to
the log. -/
theorem stopped_never_runs (post : List Step) (σ : Reaper) (i : Nat) (t : Timer)
    (hi : σ.timers[i]? = some t) (hs : t.status = TimerStatus.stopped)
    (e : ReaperEvent) (he : e ∈ (run σ post).log) (hei : e.timer = i) : e ∈ σ.log := by
  induction post generalizing σ with
  | nil => exact he
  | cons s post ih =>
    rw [run_cons] at he
    have h := ih (step σ s) (step_settled σ s i t hi (by simp [hs]) (by simp [hs])) he
    rcases step_log σ s e h with h | ⟨u, hu, hx, _⟩
    · exact h
    · rw [hei, hi] at hu
      cases hu
      rw [hs] at hx
      cases hx

/-- C6, as stated, fails: the timer armed for connection 7 expires after 5
minutes, the connection then turns active and the hook replaces the timer in
the map, and the function of the expired timer, run after that, still logs
and closes connection 7. -/
theorem callback_ignores_registry :
    ¬ (∀ (tr : List Step) (i : Nat) (t : Timer),
        (run Reaper.init tr).timers[i]? = some t →
        (run Reaper.init tr).m t.conn ≠ some i →
        (step (run Reaper.init tr) (Step.callback i)).log = (run Reaper.init tr).log) := by
  intro h
  have h0 := h [Step.notify 7 StateIdle, Step.advance idleTimeout, Step.expire 0,
      Step.notify 7 StateActive] 0
    { conn := 7, d := idleTimeout, deadline := idleTimeout, status := TimerStatus.expired }
    (by decide) (by decide)
  revert h0
  decide

/-- C6, amended: a timer that has not expired when the next notification
for its connection arrives is stopped by that notification, and in every
interleaving that follows its function makes no call: it never logs and never
closes the connection. -/
theorem stopped_timer_never_closes (tr : List Step) (i : Nat) (t : Timer)
    (hi : (run Reaper.init tr).timers[i]? = some t) (ha : t.status = TimerStatus.armed)
    (cs : ConnState) (post : List Step) :
    (run Reaper.init (tr ++ [Step.notify t.conn cs])).timers[i]?
        = some { t with status := TimerStatus.stopped } ∧
    ∀ e ∈ (run Reaper.init (tr ++ Step.notify t.conn cs :: post)).log, e.timer ≠ i := by
  have hσ := reachable_armedRegistered tr
  have hm := hσ i t hi ha
  have hlt : i < (run Reaper.init tr).timers.length := (List.getElem?_eq_some_iff.mp hi).1
  have hc : (cancelEntry (run Reaper.init tr) t.conn).timers[i]?
      = some { t with status := TimerStatus.stopped } := by
    rw [cancelEntry_of_some _ _ i hm, getElem?_stopTimer, if_pos rfl, hi]
    simp [Stop_of_armed t ha]
  have hs : (idleTimeoutHook (run Reaper.init tr) t.conn cs).timers[i]?
      = some { t with status := TimerStatus.stopped } := by
    unfold idleTimeoutHook
    cases switchDuration cs with
    | none => exact hc
    | some d =>
      simp only [armEntry]
      rw [List.getElem?_append_left (by rw [cancelEntry_length]; exact hlt)]
      exact hc
  refine ⟨by rw [run_append]; exact hs, ?_⟩
  intro e he hei
  rw [run_append, run_cons] at he
  have h1 := stopped_never_runs post _ i _ hs rfl e he hei
  have h2 : e ∈ (run Reaper.init tr).log := by
    have h3 : e ∈ (idleTimeoutHook (run Reaper.init tr) t.conn cs).log := h1
    rw [hook_log] at h3
    exact h3
  rcases reachable_logDone tr e h2 with ⟨u, hu, hd⟩
  rw [hei, hi] at hu
  cases hu
  rw [ha] at hd
  cases hd

/-- C6, amended, at a concrete input: connection 7 goes idle and is closed
one second later; five minutes after that the runtime and a goroutine try
the timer, and nothing is logged. -/
theorem stopped_timer_never_closes_witness :
    (run Reaper.init [Step.notify 7 StateIdle, Step.advance Second]).timers[0]?
      = some { conn := 7, d := idleTimeout, deadline := idleTimeout,
               status := TimerStatus.armed } ∧
    ∀ e ∈ (run Reaper.init ([Step.notify 7 StateIdle, Step.advance Second] ++
        Step.notify 7 StateClosed ::
          [Step.advance idleTimeout, Step.expire 0, Step.callback 0])).log,
      e.timer ≠ 0 :=
  ⟨by decide,
    (stopped_timer_never_closes [Step.notify 7 StateIdle, Step.advance Second] 0
      { conn := 7, d := idleTimeout, deadline := idleTimeout, status := TimerStatus.armed }
      (by decide) rfl StateClosed
      [Step.advance idleTimeout, Step.expire 0, Step.callback 0]).2⟩

end H2Demo
